import Mathlib

/-!
Shallow embedding of the `BondingCurve` contract (src/src/BondingCurve.sol)
of the mymemepad repository, together with the slice of `MemeToken`
(src/src/MemeToken.sol) that the curve's operations depend on: the
max-supply cap on curve mints, the token balance check on sells, and the
token total supply.

Machine integers (`uint256`) are modelled as `ℕ`.  All quantities in the
contract stay far below `2^256` for valid constructor parameters
(`maxSupply ≤ 10^9`, prices ≤ `startingPrice ≤ 10^15`, products ≤ `10^33`),
so unchecked `ℕ` addition and multiplication are faithful; Solidity 0.8
checked subtraction and division-by-zero panics are modelled explicitly
(`Option`/error results) at the places they can occur.  Quote-asset
(`$TRUST`) transfers are modelled by tracking the contract's own holdings
in `trustHeld`; a failing ERC20 transfer (insufficient holdings) is the
`transferFailed` error.  Buyer-side `$TRUST` funding and allowances are
assumed (the test suite approves an unlimited allowance).
-/

namespace MyMemePad

/-- Fixed-point scale, `PRECISION = 1e18` in the contract. -/
def PRECISION : ℕ := 10 ^ 18

/-- Trade fee percentage (1%). -/
def FEE_PERCENTAGE : ℕ := 1

/-- Migration threshold, `10_000_000 * PRECISION`. -/
def MIGRATION_THRESHOLD : ℕ := 10000000 * PRECISION

/-- Slope constant of the price formula (`SLOPE = 1533` in the contract). -/
def SLOPE : ℕ := 1533

/-- Largest representable `uint256` value. -/
def UINT256_MAX : ℕ := 2 ^ 256 - 1

/-- The constructor's starting price:
`startingPrice = PRECISION / ((1e15 * maxSupply) / 1e18)`. -/
def startingPriceOf (maxSupply : ℕ) : ℕ :=
  PRECISION / ((10 ^ 15 * maxSupply) / 10 ^ 18)

/-- Creator allocation, 0.1% of max supply:
`(maxSupply * 100) / 100_000` (both contracts use this formula). -/
def creatorAllocationOf (maxSupply : ℕ) : ℕ := maxSupply * 100 / 100000

/-- The value the specification's words describe for the starting price:
the fixed-point value (scale `10^18`, truncating) of `1 / (0.001 * maxUnits)`,
that is `10^18 * 1000 / maxUnits = 10^21 / maxUnits`.  Kept separate from
`startingPriceOf` so the two can be compared. -/
def specStartingPrice (maxUnits : ℕ) : ℕ := 10 ^ 21 / maxUnits

/-- Combined state of one bonding curve: the curve contract's own storage
(`totalTokensSold`, `totalTrustReceived`, `reserveTrustBalance`, `isActive`,
`migrationTriggered`, immutables `maxSupply` and `startingPrice`), the
curve's actual quote-asset holdings `trustHeld`, and the meme-token ledger
data the curve reads (`balances`, `tokenSupply`). -/
structure Curve where
  maxSupply : ℕ
  startingPrice : ℕ
  totalTokensSold : ℕ
  totalTrustReceived : ℕ
  reserveTrustBalance : ℕ
  trustHeld : ℕ
  isActive : Bool
  migrationTriggered : Bool
  balances : ℕ → ℕ
  tokenSupply : ℕ

/-- State immediately after the two constructors have run: the meme token
has minted the locked creator allocation to itself, the curve has minted the
same allocation to its own custody and counted it in `totalTokensSold`. -/
def mkCurve (maxSupply : ℕ) : Curve where
  maxSupply := maxSupply
  startingPrice := startingPriceOf maxSupply
  totalTokensSold := creatorAllocationOf maxSupply
  totalTrustReceived := 0
  reserveTrustBalance := 0
  trustHeld := 0
  isActive := true
  migrationTriggered := false
  balances := fun _ => 0
  tokenSupply := 2 * creatorAllocationOf maxSupply

/-- `getPriceAtSupply`: price at a supply level.  For `supply ≤ maxSupply`
the truncating `ℕ` subtraction agrees with Solidity's checked subtraction,
because `supply * (PRECISION - 1) / maxSupply ≤ PRECISION - 1`. -/
def getPriceAtSupply (c : Curve) (supply : ℕ) : ℕ :=
  if supply = 0 then c.startingPrice
  else
    let pc := PRECISION - supply * (PRECISION - 1) / c.maxSupply
    c.startingPrice * pc / PRECISION + SLOPE * supply / PRECISION

/-- `getCurrentPrice`: price at the current supply. -/
def getCurrentPrice (c : Curve) : ℕ := getPriceAtSupply c c.totalTokensSold

/-- `calculatePriceIntegral`: trapezoidal rule over 100 segments of width
`(toTokens - fromTokens) / 100` (truncated), accumulated exactly as the
contract's loop does. -/
def calculatePriceIntegral (c : Curve) (fromTokens toTokens : ℕ) : ℕ :=
  let steps := 100
  let stepSize := (toTokens - fromTokens) / steps
  let totalValue := (List.range steps).foldl
    (fun acc i =>
      acc + stepSize * (getPriceAtSupply c (fromTokens + i * stepSize) +
        getPriceAtSupply c (fromTokens + (i + 1) * stepSize)) / 2) 0
  totalValue / PRECISION

/-- `calculatePurchasePrice`.  `none` models the Solidity panic when
`PRECISION / currentPrice` divides by zero. -/
def calculatePurchasePrice (c : Curve) (tokenAmount : ℕ) : Option ℕ :=
  let currentPrice := getCurrentPrice c
  if currentPrice = 0 then none
  else if tokenAmount ≤ PRECISION / currentPrice then
    some (tokenAmount * currentPrice / PRECISION)
  else
    some (calculatePriceIntegral c c.totalTokensSold (c.totalTokensSold + tokenAmount))

/-- `calculateSalePrice`.  `none` models the Solidity panics: underflow of
`totalTokensSold - tokenAmount`, or division by a zero current price. -/
def calculateSalePrice (c : Curve) (tokenAmount : ℕ) : Option ℕ :=
  if c.totalTokensSold < tokenAmount then none
  else
    let currentPrice := getCurrentPrice c
    if currentPrice = 0 then none
    else if tokenAmount ≤ PRECISION / currentPrice then
      some (tokenAmount * currentPrice / PRECISION)
    else
      some (calculatePriceIntegral c (c.totalTokensSold - tokenAmount) c.totalTokensSold)

/-- `getCurrentMarketCap`: implied valuation at the current price. -/
def getCurrentMarketCap (c : Curve) : ℕ :=
  getCurrentPrice c * c.maxSupply / PRECISION

/-- `shouldMigrate`: the pure migration predicate. -/
def shouldMigrate (c : Curve) : Bool :=
  decide (MIGRATION_THRESHOLD ≤ getCurrentMarketCap c)

/-- Failure modes of the trade executor.  `tradingHalted` covers both the
administrative pause and the terminal migration state, as in the spec's
taxonomy; `panic` is a Solidity arithmetic panic (division by zero or
checked-subtraction underflow); `exceedsMaxSupply` is the meme token's mint
cap; `transferFailed` is a quote-asset transfer reverting for lack of
holdings. -/
inductive TradeError where
  | tradingHalted
  | invalidQuantity
  | slippageExceeded
  | insufficientBalance
  | insufficientLiquidity
  | exceedsMaxSupply
  | transferFailed
  | panic
deriving DecidableEq, Repr

/-- `buyTokens`, as an atomic state transition: on any revert the storage is
unchanged (the error carries no state).  Guards appear in the contract's
order; the meme token's mint cap (`totalSupply + amount ≤ maxSupply -
creatorAllocation`) reverts the whole buy if violated. -/
def buyTokens (c : Curve) (caller tokenAmount minTrustRequired : ℕ) :
    Except TradeError (Curve × ℕ) :=
  if c.isActive = false then .error .tradingHalted
  else if tokenAmount = 0 then .error .invalidQuantity
  else if c.migrationTriggered then .error .tradingHalted
  else if MIGRATION_THRESHOLD ≤ getCurrentMarketCap c then
    .ok ({ c with migrationTriggered := true }, 0)
  else
    match calculatePurchasePrice c tokenAmount with
    | none => .error .panic
    | some trustRequired =>
      if trustRequired < minTrustRequired then .error .slippageExceeded
      else
        let feeAmount := trustRequired * FEE_PERCENTAGE / 100
        let trustToCurve := trustRequired - feeAmount
        if c.maxSupply - creatorAllocationOf c.maxSupply < c.tokenSupply + tokenAmount then
          .error .exceedsMaxSupply
        else
          .ok ({ c with
            totalTokensSold := c.totalTokensSold + tokenAmount
            totalTrustReceived := c.totalTrustReceived + trustRequired
            reserveTrustBalance := c.reserveTrustBalance + trustToCurve
            trustHeld := c.trustHeld + trustToCurve
            balances := fun a => if a = caller then c.balances a + tokenAmount else c.balances a
            tokenSupply := c.tokenSupply + tokenAmount }, trustRequired)

/-- `sellTokens`, as an atomic state transition.  The contract pays the
seller `trustReceived - fee` and the treasury `fee` out of its own
quote-asset holdings, but deducts only `trustReceived - fee` from
`reserveTrustBalance`; the transfers revert (`transferFailed`) when the
holdings cannot cover the full gross amount. -/
def sellTokens (c : Curve) (caller tokenAmount minTrustRequired : ℕ) :
    Except TradeError (Curve × ℕ) :=
  if c.isActive = false then .error .tradingHalted
  else if tokenAmount = 0 then .error .invalidQuantity
  else if c.balances caller < tokenAmount then .error .insufficientBalance
  else
    match calculateSalePrice c tokenAmount with
    | none => .error .panic
    | some trustReceived =>
      if trustReceived < minTrustRequired then .error .slippageExceeded
      else
        let feeAmount := trustReceived * FEE_PERCENTAGE / 100
        let trustToSeller := trustReceived - feeAmount
        if c.reserveTrustBalance < trustToSeller then .error .insufficientLiquidity
        else if c.trustHeld < trustToSeller + feeAmount then .error .transferFailed
        else
          .ok ({ c with
            totalTokensSold := c.totalTokensSold - tokenAmount
            reserveTrustBalance := c.reserveTrustBalance - trustToSeller
            trustHeld := c.trustHeld - (trustToSeller + feeAmount)
            balances := fun a => if a = caller then c.balances a - tokenAmount else c.balances a
            tokenSupply := c.tokenSupply - tokenAmount }, trustReceived)

/-- `setTradingPaused` (owner-only administrative switch). -/
def setTradingPaused (c : Curve) (paused : Bool) : Curve :=
  { c with isActive := !paused }

/-- Operations that mutate a curve's state. -/
inductive Op where
  | buy (caller tokenAmount minTrustRequired : ℕ)
  | sell (caller tokenAmount minTrustRequired : ℕ)
  | setPaused (paused : Bool)

/-- Apply one operation; a reverted trade leaves the state unchanged. -/
def applyOp (c : Curve) : Op → Curve
  | .buy caller q minT =>
    match buyTokens c caller q minT with
    | .ok r => r.1
    | .error _ => c
  | .sell caller q minT =>
    match sellTokens c caller q minT with
    | .ok r => r.1
    | .error _ => c
  | .setPaused b => setTradingPaused c b

/-- Run a sequence of operations. -/
def run (c : Curve) (ops : List Op) : Curve := ops.foldl applyOp c

/-- Error component of a trade result, if any. -/
def errorOf : Except TradeError (Curve × ℕ) → Option TradeError
  | .error e => some e
  | .ok _ => none

/-- Returned quote value of a successful trade. -/
def okValue : Except TradeError (Curve × ℕ) → Option ℕ
  | .ok r => some r.2
  | .error _ => none

/-- `totalTokensSold` after a successful trade. -/
def okTotalTokensSold : Except TradeError (Curve × ℕ) → Option ℕ
  | .ok r => some r.1.totalTokensSold
  | .error _ => none

/-- `reserveTrustBalance` after a successful trade. -/
def okReserve : Except TradeError (Curve × ℕ) → Option ℕ
  | .ok r => some r.1.reserveTrustBalance
  | .error _ => none

/-- Quote-asset holdings after a successful trade. -/
def okTrustHeld : Except TradeError (Curve × ℕ) → Option ℕ
  | .ok r => some r.1.trustHeld
  | .error _ => none

/-- `migrationTriggered` flag after a successful trade. -/
def okMigrationTriggered : Except TradeError (Curve × ℕ) → Option Bool
  | .ok r => some r.1.migrationTriggered
  | .error _ => none

/-- The trapezoidal integral exactly as the specification words it:
partition into 100 equal-width steps (width `(hi - lo) / 100`, truncating),
sum `step_width * (price x_i + price x_(i+1)) / 2` over the steps, divide
the total by the scale. -/
def trapezoidSumSpec (c : Curve) (lo hi : ℕ) : ℕ :=
  (∑ i in Finset.range 100,
    (hi - lo) / 100 * (getPriceAtSupply c (lo + i * ((hi - lo) / 100)) +
      getPriceAtSupply c (lo + (i + 1) * ((hi - lo) / 100))) / 2) / PRECISION

/-- Ghost totals accumulated along a trace: units issued by buys, units
retired by sells, net quote contributed by buys (gross minus fee), net quote
paid out by sells (gross minus fee), and the quote fees paid to the treasury
out of sell proceeds. -/
structure Totals where
  issued : ℕ
  retired : ℕ
  buyNet : ℕ
  sellNet : ℕ
  sellFees : ℕ

/-- Totals contributed by one operation from state `c`.  A buy that returns
the migration signal (flag freshly set) moves no units and no quote. -/
def stepTotals (c : Curve) : Op → Totals
  | .buy caller q minT =>
    match buyTokens c caller q minT with
    | .ok r =>
      if r.1.migrationTriggered then ⟨0, 0, 0, 0, 0⟩
      else ⟨q, 0, r.2 - r.2 * FEE_PERCENTAGE / 100, 0, 0⟩
    | .error _ => ⟨0, 0, 0, 0, 0⟩
  | .sell caller q minT =>
    match sellTokens c caller q minT with
    | .ok r => ⟨0, q, 0, r.2 - r.2 * FEE_PERCENTAGE / 100, r.2 * FEE_PERCENTAGE / 100⟩
    | .error _ => ⟨0, 0, 0, 0, 0⟩
  | .setPaused _ => ⟨0, 0, 0, 0, 0⟩

/-- Totals accumulated along a whole trace. -/
def traceTotals : Curve → List Op → Totals
  | _, [] => ⟨0, 0, 0, 0, 0⟩
  | c, op :: ops =>
    let t := stepTotals c op
    let r := traceTotals (applyOp c op) ops
    ⟨t.issued + r.issued, t.retired + r.retired, t.buyNet + r.buyNet,
      t.sellNet + r.sellNet, t.sellFees + r.sellFees⟩

/-- Synthetic state used to exercise the migration branch: the market-cap
predicate holds (`10^37 * 10^6 / 10^18 = 10^25 = MIGRATION_THRESHOLD`). -/
def migrationReadyCurve : Curve where
  maxSupply := 1000000
  startingPrice := 10 ^ 37
  totalTokensSold := 0
  totalTrustReceived := 0
  reserveTrustBalance := 0
  trustHeld := 0
  isActive := true
  migrationTriggered := false
  balances := fun _ => 0
  tokenSupply := 2000

/-- State on the one-million-unit curve sitting at supply 198750, used to
exhibit a round-trip of 1250 units whose buy is priced by the integral path
but whose sell is priced by the shortcut. -/
def roundTripCurve : Curve where
  maxSupply := 1000000
  startingPrice := startingPriceOf 1000000
  totalTokensSold := 198750
  totalTrustReceived := 0
  reserveTrustBalance := 5
  trustHeld := 5
  isActive := true
  migrationTriggered := false
  balances := fun _ => 0
  tokenSupply := 199750

/-- The one-million-unit curve at the top of its supply range, where the
current price evaluates to zero. -/
def soldOutCurve : Curve where
  maxSupply := 1000000
  startingPrice := startingPriceOf 1000000
  totalTokensSold := 1000000
  totalTrustReceived := 0
  reserveTrustBalance := 0
  trustHeld := 0
  isActive := true
  migrationTriggered := false
  balances := fun _ => 0
  tokenSupply := 1000000

/-- Trace on the one-billion-unit curve that leaves the reserve accounting
ahead of the actual holdings: one large buy, then one large sell whose 1%
fee leaves `trustHeld` one fee unit short of `reserveTrustBalance`. -/
def feeDriftOps : List Op :=
  [Op.buy 7 300000000 0, Op.sell 7 150000000 0]

/-- State reached by `feeDriftOps` from the fresh one-billion-unit curve. -/
def feeDriftCurve : Curve := run (mkCurve 1000000000) feeDriftOps

/-- State after only the large buy of `feeDriftOps`. -/
def postBuyCurve : Curve := applyOp (mkCurve 1000000000) (Op.buy 7 300000000 0)

/-! ## Helper lemmas -/

/-- A left fold that only accumulates additions is the sum over the range. -/
theorem foldl_add_range (f : ℕ → ℕ) (n : ℕ) :
    (List.range n).foldl (fun acc i => acc + f i) 0 = ∑ i in Finset.range n, f i := by
  induction n with
  | zero => simp
  | succ k ih =>
    rw [List.range_succ, List.foldl_append, ih, Finset.sum_range_succ]
    simp

set_option maxRecDepth 4000 in
set_option maxHeartbeats 1000000 in
/-- The contract's integration loop computes exactly the trapezoidal sum the
specification describes. -/
theorem calculatePriceIntegral_eq_trapezoidSumSpec (c : Curve) (lo hi : ℕ) :
    calculatePriceIntegral c lo hi = trapezoidSumSpec c lo hi := by
  simp only [calculatePriceIntegral, trapezoidSumSpec]
  rw [foldl_add_range]

/-- The price function reads only the immutable fields, so updating the
supply counter does not change it. -/
theorem getPriceAtSupply_update_sold (c : Curve) (n s : ℕ) :
    getPriceAtSupply { c with totalTokensSold := n } s = getPriceAtSupply c s := rfl

/-- Likewise for the integral of the price function. -/
theorem calculatePriceIntegral_update_sold (c : Curve) (n lo hi : ℕ) :
    calculatePriceIntegral { c with totalTokensSold := n } lo hi =
      calculatePriceIntegral c lo hi := by
  rw [calculatePriceIntegral_eq_trapezoidSumSpec, calculatePriceIntegral_eq_trapezoidSumSpec]
  unfold trapezoidSumSpec
  congr 1

/-- For any supply within the valid range the linear term `SLOPE * s / PRECISION`
truncates to zero. -/
theorem slope_component_eq_zero {s : ℕ} (hs : s ≤ 10 ^ 9) :
    SLOPE * s / PRECISION = 0 := by
  apply Nat.div_eq_of_lt
  calc SLOPE * s ≤ SLOPE * 10 ^ 9 := Nat.mul_le_mul_left _ hs
  _ < PRECISION := by norm_num [SLOPE, PRECISION]

/-- The price function is non-increasing on `[0, maxSupply]` whenever
`maxSupply ≤ 10^9`, for every value of the starting price. -/
theorem getPriceAtSupply_anti (c : Curve) (hm : c.maxSupply ≤ 10 ^ 9)
    {s1 s2 : ℕ} (h12 : s1 ≤ s2) (h2 : s2 ≤ c.maxSupply) :
    getPriceAtSupply c s2 ≤ getPriceAtSupply c s1 := by
  have hz2 : SLOPE * s2 / PRECISION = 0 := slope_component_eq_zero (le_trans h2 hm)
  rcases Nat.eq_zero_or_pos s2 with h0 | hpos2
  · have h10 : s1 = 0 := by omega
    simp [h0, h10]
  rcases Nat.eq_zero_or_pos s1 with h10 | hpos1
  · simp only [getPriceAtSupply, h10, if_pos rfl, if_neg (Nat.pos_iff_ne_zero.mp hpos2), hz2,
      add_zero]
    calc c.startingPrice * (PRECISION - s2 * (PRECISION - 1) / c.maxSupply) / PRECISION
        ≤ c.startingPrice * PRECISION / PRECISION :=
          Nat.div_le_div_right (Nat.mul_le_mul_left _ (Nat.sub_le _ _))
    _ = c.startingPrice := Nat.mul_div_cancel _ (by norm_num [PRECISION])
  · simp only [getPriceAtSupply, if_neg (Nat.pos_iff_ne_zero.mp hpos2),
      if_neg (Nat.pos_iff_ne_zero.mp hpos1), hz2, add_zero]
    have ht : s1 * (PRECISION - 1) / c.maxSupply ≤ s2 * (PRECISION - 1) / c.maxSupply :=
      Nat.div_le_div_right (Nat.mul_le_mul_right _ h12)
    calc c.startingPrice * (PRECISION - s2 * (PRECISION - 1) / c.maxSupply) / PRECISION
        ≤ c.startingPrice * (PRECISION - s1 * (PRECISION - 1) / c.maxSupply) / PRECISION :=
          Nat.div_le_div_right (Nat.mul_le_mul_left _ (Nat.sub_le_sub_left ht _))
    _ ≤ _ := Nat.le_add_right _ _

/-- Constructor starting prices are at least `10^12` for valid max supplies. -/
theorem startingPriceOf_lb {m : ℕ} (hlo : 10 ^ 6 ≤ m) (hhi : m ≤ 10 ^ 9) :
    10 ^ 12 ≤ startingPriceOf m := by
  unfold startingPriceOf PRECISION
  have hd1 : 1000 ≤ 10 ^ 15 * m / 10 ^ 18 := by
    have h : 10 ^ 15 * 10 ^ 6 / 10 ^ 18 ≤ 10 ^ 15 * m / 10 ^ 18 :=
      Nat.div_le_div_right (Nat.mul_le_mul_left (10 ^ 15) hlo)
    calc (1000 : ℕ) = 10 ^ 15 * 10 ^ 6 / 10 ^ 18 := by norm_num
    _ ≤ _ := h
  have hd2 : 10 ^ 15 * m / 10 ^ 18 ≤ 10 ^ 6 := by
    have h : 10 ^ 15 * m / 10 ^ 18 ≤ 10 ^ 15 * 10 ^ 9 / 10 ^ 18 :=
      Nat.div_le_div_right (Nat.mul_le_mul_left (10 ^ 15) hhi)
    calc 10 ^ 15 * m / 10 ^ 18 ≤ 10 ^ 15 * 10 ^ 9 / 10 ^ 18 := h
    _ = 10 ^ 6 := by norm_num
  calc (10 ^ 12 : ℕ) = 10 ^ 18 / 10 ^ 6 := by norm_num
  _ ≤ 10 ^ 18 / (10 ^ 15 * m / 10 ^ 18) := Nat.div_le_div_left hd2 (by omega)

/-- The purchasing-power coefficient stays at or above `10^9` strictly below
the maximum supply. -/
theorem pc_lower {m s : ℕ} (hm : 0 < m) (hm9 : m ≤ 10 ^ 9) (hs : s < m) :
    10 ^ 9 ≤ 10 ^ 18 - s * (10 ^ 18 - 1) / m := by
  have h1 : s * (10 ^ 18 - 1) / m ≤ (m - 1) * (10 ^ 18 - 1) / m :=
    Nat.div_le_div_right (Nat.mul_le_mul_right _ (by omega))
  have k1 : (m - 1) * (10 ^ 18 - 1) + (10 ^ 18 - 1) = m * (10 ^ 18 - 1) := by
    have hx : (10 ^ 18 - 1 : ℕ) ≤ m * (10 ^ 18 - 1) := Nat.le_mul_of_pos_left _ hm
    have hy := Nat.sub_one_mul m (10 ^ 18 - 1)
    omega
  have k2 : (m - 1) * (10 ^ 18 - 1) / m * m ≤ (m - 1) * (10 ^ 18 - 1) :=
    Nat.div_mul_le_self _ _
  have k3 : (10 ^ 18 - 1) / m * m ≤ 10 ^ 18 - 1 := Nat.div_mul_le_self _ _
  have k4 : ((m - 1) * (10 ^ 18 - 1) / m + (10 ^ 18 - 1) / m) * m ≤ m * (10 ^ 18 - 1) := by
    rw [add_mul]; omega
  have k5 : (m - 1) * (10 ^ 18 - 1) / m + (10 ^ 18 - 1) / m ≤ 10 ^ 18 - 1 := by
    have h := (Nat.le_div_iff_mul_le hm).mpr k4
    rwa [Nat.mul_div_cancel_left _ hm] at h
  have h3 : 999999999 ≤ (10 ^ 18 - 1) / m := by
    calc (999999999 : ℕ) = (10 ^ 18 - 1) / 10 ^ 9 := by norm_num
    _ ≤ (10 ^ 18 - 1) / m := Nat.div_le_div_left hm9 hm
  omega

/-- With the constructor's starting price, the price is at least one quote
wei strictly below the maximum supply. -/
theorem one_le_getPriceAtSupply {c : Curve} (hsp : c.startingPrice = startingPriceOf c.maxSupply)
    (hlo : 10 ^ 6 ≤ c.maxSupply) (hhi : c.maxSupply ≤ 10 ^ 9)
    {s : ℕ} (hs : s < c.maxSupply) : 1 ≤ getPriceAtSupply c s := by
  have hsp12 : 10 ^ 12 ≤ c.startingPrice := by
    rw [hsp]; exact startingPriceOf_lb hlo hhi
  rcases Nat.eq_zero_or_pos s with h0 | hpos
  · simp only [getPriceAtSupply, h0, if_pos rfl]
    exact le_trans (by norm_num) hsp12
  · simp only [getPriceAtSupply, if_neg (Nat.pos_iff_ne_zero.mp hpos)]
    have hpc : 10 ^ 9 ≤ PRECISION - s * (PRECISION - 1) / c.maxSupply := by
      simpa [PRECISION] using pc_lower (by omega) hhi hs
    have hmul : 10 ^ 12 * 10 ^ 9 ≤
        c.startingPrice * (PRECISION - s * (PRECISION - 1) / c.maxSupply) :=
      Nat.mul_le_mul hsp12 hpc
    have hdiv : 1 ≤ c.startingPrice * (PRECISION - s * (PRECISION - 1) / c.maxSupply) /
        PRECISION := by
      rw [Nat.le_div_iff_mul_le (by norm_num [PRECISION])]
      calc 1 * PRECISION = PRECISION := one_mul _
      _ ≤ 10 ^ 12 * 10 ^ 9 := by norm_num [PRECISION]
      _ ≤ _ := hmul
    exact le_trans hdiv (Nat.le_add_right _ _)

/-- Case analysis of a successful buy: either the migration branch fired
(flag set, nothing else moves, zero returned), or a purchase completed and
the storage moved exactly by the quoted amounts. -/
theorem buyTokens_ok_shape {c : Curve} {caller q minT : ℕ} {c' : Curve} {r : ℕ}
    (h : buyTokens c caller q minT = .ok (c', r)) :
    c.isActive = true ∧ q ≠ 0 ∧ c.migrationTriggered = false ∧
    ((MIGRATION_THRESHOLD ≤ getCurrentMarketCap c ∧
      c' = { c with migrationTriggered := true } ∧ c'.migrationTriggered = true ∧ r = 0) ∨
     (getCurrentMarketCap c < MIGRATION_THRESHOLD ∧
      calculatePurchasePrice c q = some r ∧ minT ≤ r ∧
      c'.totalTokensSold = c.totalTokensSold + q ∧
      c'.totalTrustReceived = c.totalTrustReceived + r ∧
      c'.reserveTrustBalance = c.reserveTrustBalance + (r - r * FEE_PERCENTAGE / 100) ∧
      c'.trustHeld = c.trustHeld + (r - r * FEE_PERCENTAGE / 100) ∧
      c'.migrationTriggered = false ∧ c'.isActive = c.isActive)) := by
  unfold buyTokens at h
  split at h
  · exact absurd h (by simp)
  split at h
  · exact absurd h (by simp)
  split at h
  · exact absurd h (by simp)
  rename_i hact hq hmig
  refine ⟨by simpa using hact, by simpa using hq, by simpa using hmig, ?_⟩
  split at h
  · rename_i hcap
    left
    simp only [Except.ok.injEq, Prod.mk.injEq] at h
    obtain ⟨hc, hr⟩ := h
    exact ⟨hcap, hc.symm, by rw [← hc], hr.symm⟩
  · rename_i hcap
    right
    split at h
    · exact absurd h (by simp)
    rename_i v hv
    split at h
    · exact absurd h (by simp)
    rename_i hslip
    split at h
    · exact absurd h (by simp)
    simp only [Except.ok.injEq, Prod.mk.injEq] at h
    obtain ⟨hc, hr⟩ := h
    subst hr
    refine ⟨by omega, hv, by omega, ?_, ?_, ?_, ?_, ?_, ?_⟩ <;>
      simp [← hc, by simpa using hmig]

/-- Case analysis of a successful sell: the quoted gross amount leaves the
holdings in full, while the reserve drops only by the net payout. -/
theorem sellTokens_ok_shape {c : Curve} {caller q minT : ℕ} {c' : Curve} {r : ℕ}
    (h : sellTokens c caller q minT = .ok (c', r)) :
    c.isActive = true ∧ q ≠ 0 ∧ q ≤ c.balances caller ∧
    calculateSalePrice c q = some r ∧ minT ≤ r ∧ q ≤ c.totalTokensSold ∧
    r - r * FEE_PERCENTAGE / 100 ≤ c.reserveTrustBalance ∧
    c'.totalTokensSold + q = c.totalTokensSold ∧
    c'.reserveTrustBalance + (r - r * FEE_PERCENTAGE / 100) = c.reserveTrustBalance ∧
    c'.trustHeld + r = c.trustHeld ∧
    c'.totalTrustReceived = c.totalTrustReceived ∧
    c'.migrationTriggered = c.migrationTriggered ∧ c'.isActive = c.isActive := by
  unfold sellTokens at h
  split at h
  · exact absurd h (by simp)
  split at h
  · exact absurd h (by simp)
  split at h
  · exact absurd h (by simp)
  rename_i hact hq hbal
  split at h
  · exact absurd h (by simp)
  rename_i v hv
  split at h
  · exact absurd h (by simp)
  rename_i hslip
  dsimp only at h
  split at h
  · exact absurd h (by simp)
  split at h
  · exact absurd h (by simp)
  rename_i hliq hheld
  have hsold : q ≤ c.totalTokensSold := by
    unfold calculateSalePrice at hv
    split at hv
    · exact absurd hv (by simp)
    · omega
  have hfee : v * FEE_PERCENTAGE / 100 ≤ v := by
    simp only [FEE_PERCENTAGE, mul_one]
    exact Nat.div_le_self _ _
  simp only [Except.ok.injEq, Prod.mk.injEq] at h
  obtain ⟨hc, hr⟩ := h
  subst hr
  refine ⟨by simpa using hact, by simpa using hq, by omega, hv, by omega, hsold, by omega,
    ?_, ?_, ?_, ?_, ?_, ?_⟩ <;> simp [← hc] <;> omega

/-- A trade that reverts leaves the state unchanged under `applyOp`. -/
theorem applyOp_error_buy {c : Curve} {caller q minT : ℕ} {e : TradeError}
    (h : errorOf (buyTokens c caller q minT) = some e) :
    applyOp c (.buy caller q minT) = c := by
  unfold applyOp
  cases hb : buyTokens c caller q minT with
  | ok r => rw [hb] at h; exact absurd h (by simp [errorOf])
  | error e2 => simp [hb]

/-- A sell that reverts leaves the state unchanged under `applyOp`. -/
theorem applyOp_error_sell {c : Curve} {caller q minT : ℕ} {e : TradeError}
    (h : errorOf (sellTokens c caller q minT) = some e) :
    applyOp c (.sell caller q minT) = c := by
  unfold applyOp
  cases hb : sellTokens c caller q minT with
  | ok r => rw [hb] at h; exact absurd h (by simp [errorOf])
  | error e2 => simp [hb]

/-- One operation moves the books exactly by its step totals. -/
theorem step_accounting (c : Curve) (op : Op) :
    (applyOp c op).totalTokensSold + (stepTotals c op).retired =
      c.totalTokensSold + (stepTotals c op).issued ∧
    (applyOp c op).reserveTrustBalance + (stepTotals c op).sellNet =
      c.reserveTrustBalance + (stepTotals c op).buyNet ∧
    (applyOp c op).trustHeld + (stepTotals c op).sellNet + (stepTotals c op).sellFees =
      c.trustHeld + (stepTotals c op).buyNet := by
  cases op with
  | buy caller q minT =>
    simp only [applyOp, stepTotals]
    cases hb : buyTokens c caller q minT with
    | error e => simp
    | ok pr =>
      obtain ⟨c', v⟩ := pr
      obtain ⟨-, -, -, hcase⟩ := buyTokens_ok_shape hb
      rcases hcase with ⟨-, hc, hflag, hv⟩ | ⟨-, -, -, h1, h2, h3, h4, hflag, -⟩
      · subst hc
        simp
      · simp only [hflag, Bool.false_eq_true, if_false]
        simp only [h1, h3, h4]
        omega
  | sell caller q minT =>
    simp only [applyOp, stepTotals]
    cases hb : sellTokens c caller q minT with
    | error e => simp
    | ok pr =>
      obtain ⟨c', v⟩ := pr
      obtain ⟨-, -, -, -, -, -, -, h1, h2, h3, -, -, -⟩ := sellTokens_ok_shape hb
      have hfee : v * FEE_PERCENTAGE / 100 ≤ v := by
        simp only [FEE_PERCENTAGE, mul_one]
        exact Nat.div_le_self _ _
      simp only []
      omega
  | setPaused b =>
    simp [applyOp, stepTotals, setTradingPaused]

/-- The books balance along every trace: cumulative issued/retired units
against `totalTokensSold`, and net buy contributions against the reserve and
the actual holdings (the holdings additionally lag by the sell fees). -/
theorem run_accounting (ops : List Op) : ∀ c : Curve,
    (run c ops).totalTokensSold + (traceTotals c ops).retired =
      c.totalTokensSold + (traceTotals c ops).issued ∧
    (run c ops).reserveTrustBalance + (traceTotals c ops).sellNet =
      c.reserveTrustBalance + (traceTotals c ops).buyNet ∧
    (run c ops).trustHeld + (traceTotals c ops).sellNet + (traceTotals c ops).sellFees =
      c.trustHeld + (traceTotals c ops).buyNet := by
  induction ops with
  | nil => intro c; simp [run, traceTotals]
  | cons op ops ih =>
    intro c
    have hstep := step_accounting c op
    have hrest := ih (applyOp c op)
    simp only [run, List.foldl_cons, traceTotals] at *
    omega

/-! ## Claim theorems -/

/-- C1 counterexample: `maxUnits = 1000001` is a valid max supply, the
price at zero supply is the constructed `startingPrice`, but that value
(`10^15`, from `PRECISION / ((10^15 * maxUnits) / 10^18)`) is not the
fixed-point value of `1 / (0.001 * maxUnits)` at scale `10^18`
(`10^21 / 1000001 = 999999000000999`). -/
theorem c1_startingPrice_counterexample :
    1000000 ≤ 1000001 ∧ 1000001 ≤ 1000000000 ∧
    getPriceAtSupply (mkCurve 1000001) 0 = startingPriceOf 1000001 ∧
    startingPriceOf 1000001 = 1000000000000000 ∧
    specStartingPrice 1000001 = 999999000000999 ∧
    startingPriceOf 1000001 ≠ specStartingPrice 1000001 := by
  refine ⟨by norm_num, by norm_num, rfl, by decide, by decide, by decide⟩

/-- C1 (amended): for every valid `maxUnits`, `priceAtSupply 0` equals the
constructed `startingPrice = PRECISION / ((10^15 * maxUnits) / 10^18)`
(which equals the fixed-point value of `1 / (0.001 * maxUnits)` whenever
`1000` divides `maxUnits`), and for positive supply the price is
`startingPrice * pc / SCALE + SLOPE * supply / SCALE` with
`pc = SCALE - supply * (SCALE - 1) / maxUnits`, all truncating. -/
theorem c1_priceAtSupply_formula (maxUnits : ℕ)
    (hlo : 1000000 ≤ maxUnits) (hhi : maxUnits ≤ 1000000000) (s : ℕ) :
    getPriceAtSupply (mkCurve maxUnits) 0 = startingPriceOf maxUnits ∧
    (0 < s → getPriceAtSupply (mkCurve maxUnits) s =
      startingPriceOf maxUnits * (PRECISION - s * (PRECISION - 1) / maxUnits) / PRECISION +
        SLOPE * s / PRECISION) ∧
    (1000 ∣ maxUnits → startingPriceOf maxUnits = specStartingPrice maxUnits) := by
  refine ⟨rfl, fun hs => ?_, fun hdvd => ?_⟩
  · simp only [getPriceAtSupply, if_neg (Nat.pos_iff_ne_zero.mp hs), mkCurve]
  · obtain ⟨k, hk⟩ := hdvd
    subst hk
    unfold startingPriceOf specStartingPrice PRECISION
    have h1 : (10 : ℕ) ^ 15 * (1000 * k) = 10 ^ 18 * k := by ring
    have h2 : (10 : ℕ) ^ 21 = 1000 * 10 ^ 18 := by norm_num
    rcases Nat.eq_zero_or_pos k with h0 | hpos
    · simp [h0]
    · rw [h1, Nat.mul_div_cancel_left _ (by positivity : (0:ℕ) < 10 ^ 18), h2,
        Nat.mul_div_mul_left _ _ (by norm_num)]

/-- C1 witness: at `maxUnits = 1000000` the amended formula holds, with the
constructed starting price agreeing with the spec's fixed-point value. -/
theorem c1_priceAtSupply_formula_witness :
    getPriceAtSupply (mkCurve 1000000) 0 = startingPriceOf 1000000 ∧
    getPriceAtSupply (mkCurve 1000000) 5 =
      startingPriceOf 1000000 * (PRECISION - 5 * (PRECISION - 1) / 1000000) / PRECISION +
        SLOPE * 5 / PRECISION ∧
    startingPriceOf 1000000 = specStartingPrice 1000000 := by
  obtain ⟨h1, h2, h3⟩ := c1_priceAtSupply_formula 1000000 (by norm_num) (by norm_num) 5
  exact ⟨h1, h2 (by norm_num), h3 ⟨1000, rfl⟩⟩

/-- C2: after every sequence of operations from construction,
`totalTokensSold` plus the units retired by sells equals the initial creator
allocation plus the units issued by buys, and `reserveTrustBalance` plus the
net payouts of sells equals the net contributions of buys (so the reserve,
a natural number throughout, exactly balances and never underflows). -/
theorem c2_ledger_accounting (maxUnits : ℕ) (ops : List Op) :
    (run (mkCurve maxUnits) ops).totalTokensSold + (traceTotals (mkCurve maxUnits) ops).retired =
      creatorAllocationOf maxUnits + (traceTotals (mkCurve maxUnits) ops).issued ∧
    (run (mkCurve maxUnits) ops).reserveTrustBalance +
        (traceTotals (mkCurve maxUnits) ops).sellNet =
      (traceTotals (mkCurve maxUnits) ops).buyNet := by
  have h := run_accounting ops (mkCurve maxUnits)
  have h1 : (mkCurve maxUnits).totalTokensSold = creatorAllocationOf maxUnits := rfl
  have h2 : (mkCurve maxUnits).reserveTrustBalance = 0 := rfl
  omega

/-- C3: on an active, not-yet-migrated curve whose implied valuation has
reached the threshold, a buy of a positive quantity flips
`migrationTriggered` and returns the zero-cost signal with no other state
change; the flag is never reset by any operation; and once it is set every
buy fails. -/
theorem c3_migration_gate :
    (∀ (c : Curve) (caller q minT : ℕ),
      c.isActive = true → c.migrationTriggered = false → q ≠ 0 →
      MIGRATION_THRESHOLD ≤ getCurrentMarketCap c →
      buyTokens c caller q minT = .ok ({ c with migrationTriggered := true }, 0)) ∧
    (∀ (c : Curve) (op : Op), c.migrationTriggered = true →
      (applyOp c op).migrationTriggered = true) ∧
    (∀ (c : Curve) (caller q minT : ℕ), c.migrationTriggered = true →
      ∃ e, buyTokens c caller q minT = .error e) := by
  refine ⟨?_, ?_, ?_⟩
  · intro c caller q minT hact hmig hq hcap
    simp [buyTokens, hact, hmig, hq, hcap]
  · intro c op h
    cases op with
    | buy caller q minT =>
      simp only [applyOp]
      cases hb : buyTokens c caller q minT with
      | ok pr =>
        have hb' : buyTokens c caller q minT = .ok (pr.1, pr.2) := by rw [hb]
        obtain ⟨-, -, hmig, -⟩ := buyTokens_ok_shape hb'
        rw [h] at hmig
        exact absurd hmig (by simp)
      | error e => exact h
    | sell caller q minT =>
      simp only [applyOp]
      cases hb : sellTokens c caller q minT with
      | ok pr =>
        have hb' : sellTokens c caller q minT = .ok (pr.1, pr.2) := by rw [hb]
        obtain ⟨-, -, -, -, -, -, -, -, -, -, -, hmig, -⟩ := sellTokens_ok_shape hb'
        rw [hmig, h]
      | error e => exact h
    | setPaused b => exact h
  · intro c caller q minT h
    by_cases hact : c.isActive = false
    · exact ⟨.tradingHalted, by simp [buyTokens, hact]⟩
    by_cases hq : q = 0
    · exact ⟨.invalidQuantity, by simp [buyTokens, hact, hq]⟩
    · exact ⟨.tradingHalted, by simp [buyTokens, hact, hq, h]⟩

/-- C3 witness: on a state whose implied valuation equals the threshold, the
buy flips the flag and returns zero; afterwards the flag survives a further
buy attempt and every buy fails. -/
theorem c3_migration_gate_witness :
    buyTokens migrationReadyCurve 7 1 0 =
      .ok ({ migrationReadyCurve with migrationTriggered := true }, 0) ∧
    (applyOp { migrationReadyCurve with migrationTriggered := true }
      (Op.buy 7 1 0)).migrationTriggered = true ∧
    ∃ e, buyTokens { migrationReadyCurve with migrationTriggered := true } 7 1 0 = .error e := by
  refine ⟨c3_migration_gate.1 migrationReadyCurve 7 1 0 rfl rfl (by norm_num) (by decide),
    c3_migration_gate.2.1 _ _ rfl, c3_migration_gate.2.2 _ 7 1 0 rfl⟩

/-- C9: for every curve with a valid max supply and supplies
`s1 ≤ s2 ≤ maxSupply`, the price at `s2` is at most the price at `s1`, and
the slope component `SLOPE * s2 / PRECISION` truncates to zero. -/
theorem c9_price_nonincreasing (c : Curve)
    (hlo : 1000000 ≤ c.maxSupply) (hhi : c.maxSupply ≤ 1000000000)
    {s1 s2 : ℕ} (h12 : s1 ≤ s2) (h2 : s2 ≤ c.maxSupply) :
    getPriceAtSupply c s2 ≤ getPriceAtSupply c s1 ∧ SLOPE * s2 / PRECISION = 0 :=
  ⟨getPriceAtSupply_anti c (by norm_num at hhi ⊢; omega) h12 h2,
    slope_component_eq_zero (by norm_num; omega)⟩

/-- C9 witness: on the fresh one-million-unit curve, the price at supply
2000 is at most the price at supply 1000, with a vanishing slope term. -/
theorem c9_price_nonincreasing_witness :
    getPriceAtSupply (mkCurve 1000000) 2000 ≤ getPriceAtSupply (mkCurve 1000000) 1000 ∧
    SLOPE * 2000 / PRECISION = 0 :=
  c9_price_nonincreasing (mkCurve 1000000) (by norm_num [mkCurve]) (by norm_num [mkCurve])
    (by norm_num) (by norm_num [mkCurve])

/-- C4 (code-bug evidence): on the fresh one-million-unit curve, two
successive completed buys of 1000 units each cost zero quote units, so the
per-unit cost of the second buy (0) is not strictly higher than that of the
first (0).  The price function is non-increasing (see the C9 theorem), so no
parameters make the second buy strictly dearer. -/
theorem c4_successive_buys_not_dearer :
    okValue (buyTokens (mkCurve 1000000) 7 1000 0) = some 0 ∧
    okTotalTokensSold (buyTokens (mkCurve 1000000) 7 1000 0) = some 2000 ∧
    okValue (buyTokens (applyOp (mkCurve 1000000) (Op.buy 7 1000 0)) 7 1000 0) = some 0 ∧
    okTotalTokensSold (buyTokens (applyOp (mkCurve 1000000) (Op.buy 7 1000 0)) 7 1000 0) =
      some 3000 := by
  refine ⟨by decide, by decide, by decide, by decide⟩

/-- C5: with a nonzero current price (the divisor of the shortcut test), the
purchase pricer returns the averaging shortcut when the quantity is at most
`PRECISION / price(from)`, and otherwise the 100-segment trapezoidal sum of
the price function over the traded interval; the sale pricer does the same
over its interval. -/
theorem c5_tradePricer_branches (c : Curve) (q : ℕ) (hp : 0 < getCurrentPrice c) :
    calculatePurchasePrice c q =
      some (if q ≤ PRECISION / getCurrentPrice c then q * getCurrentPrice c / PRECISION
        else trapezoidSumSpec c c.totalTokensSold (c.totalTokensSold + q)) ∧
    (q ≤ c.totalTokensSold →
      calculateSalePrice c q =
        some (if q ≤ PRECISION / getCurrentPrice c then q * getCurrentPrice c / PRECISION
          else trapezoidSumSpec c (c.totalTokensSold - q) c.totalTokensSold)) := by
  constructor
  · simp only [calculatePurchasePrice]
    rw [if_neg (by omega : ¬getCurrentPrice c = 0)]
    split
    · rfl
    · rw [calculatePriceIntegral_eq_trapezoidSumSpec]
  · intro hq
    simp only [calculateSalePrice]
    rw [if_neg (by omega : ¬c.totalTokensSold < q),
      if_neg (by omega : ¬getCurrentPrice c = 0)]
    split
    · rfl
    · rw [calculatePriceIntegral_eq_trapezoidSumSpec]

/-- C5 witness: on the fresh one-million-unit curve a 1000-unit trade passes
the shortcut test and both pricers return the shortcut value. -/
theorem c5_tradePricer_branches_witness :
    0 < getCurrentPrice (mkCurve 1000000) ∧
    calculatePurchasePrice (mkCurve 1000000) 1000 =
      some (if 1000 ≤ PRECISION / getCurrentPrice (mkCurve 1000000) then
        1000 * getCurrentPrice (mkCurve 1000000) / PRECISION
        else trapezoidSumSpec (mkCurve 1000000) (mkCurve 1000000).totalTokensSold
          ((mkCurve 1000000).totalTokensSold + 1000)) ∧
    calculateSalePrice (mkCurve 1000000) 1000 =
      some (if 1000 ≤ PRECISION / getCurrentPrice (mkCurve 1000000) then
        1000 * getCurrentPrice (mkCurve 1000000) / PRECISION
        else trapezoidSumSpec (mkCurve 1000000) ((mkCurve 1000000).totalTokensSold - 1000)
          (mkCurve 1000000).totalTokensSold) := by
  have h := c5_tradePricer_branches (mkCurve 1000000) 1000 (by decide)
  exact ⟨by decide, h.1, h.2 (by decide)⟩

/-- C6: a buy or sell that fails with any error leaves the whole state
unchanged; concretely, on the fresh one-million-unit curve a buy with the
maximum representable slippage bound fails with `slippageExceeded`, and a
sell of more units than the caller holds fails with `insufficientBalance`. -/
theorem c6_failed_trades_no_mutation :
    (∀ (c : Curve) (caller q minT : ℕ) (e : TradeError),
      errorOf (buyTokens c caller q minT) = some e → applyOp c (.buy caller q minT) = c) ∧
    (∀ (c : Curve) (caller q minT : ℕ) (e : TradeError),
      errorOf (sellTokens c caller q minT) = some e → applyOp c (.sell caller q minT) = c) ∧
    errorOf (buyTokens (mkCurve 1000000) 7 1000 UINT256_MAX) = some .slippageExceeded ∧
    errorOf (sellTokens (mkCurve 1000000) 7 1 0) = some .insufficientBalance := by
  exact ⟨fun c caller q minT e h => applyOp_error_buy h,
    fun c caller q minT e h => applyOp_error_sell h, by decide, by decide⟩

/-- C6 witness: the two concrete failing trades leave the fresh curve
unchanged. -/
theorem c6_failed_trades_no_mutation_witness :
    applyOp (mkCurve 1000000) (Op.buy 7 1000 UINT256_MAX) = mkCurve 1000000 ∧
    applyOp (mkCurve 1000000) (Op.sell 7 1 0) = mkCurve 1000000 :=
  ⟨c6_failed_trades_no_mutation.1 (mkCurve 1000000) 7 1000 UINT256_MAX .slippageExceeded
      (by decide),
    c6_failed_trades_no_mutation.2.1 (mkCurve 1000000) 7 1 0 .insufficientBalance (by decide)⟩

/-- C7 counterexample: from supply 198750 on the one-million-unit curve, a
buy of 1250 units is priced by the integral path at 0 gross, while the
immediate sell of the same 1250 units is priced by the shortcut at 1 gross;
the executed round trip pays the caller 1 quote unit after paying 0, so sell
proceeds exceed buy cost and the round trip is not a strict loss. -/
theorem c7_roundtrip_profit_counterexample :
    calculatePurchasePrice roundTripCurve 1250 = some 0 ∧
    calculateSalePrice
      { roundTripCurve with totalTokensSold := roundTripCurve.totalTokensSold + 1250 } 1250 =
      some 1 ∧
    okValue (buyTokens roundTripCurve 7 1250 0) = some 0 ∧
    okValue (sellTokens (applyOp roundTripCurve (Op.buy 7 1250 0)) 7 1250 0) = some 1 := by
  refine ⟨by decide, by decide, by decide, by decide⟩

/-- C7 (amended): for a buy of `Q` followed by an immediate sell of `Q`,
whenever the two legs are priced by the same branch — which is forced unless
the buy takes the integral path while the sell takes the shortcut — the
gross sell proceeds never exceed the gross buy cost, and the post-fee payout
to the caller never exceeds the amount paid; strictness fails in general
(zero-cost round trips return zero). -/
theorem c7_roundtrip_no_profit_same_branch (c : Curve) (Q cost proceeds : ℕ)
    (hm : c.maxSupply ≤ 1000000000)
    (hrange : c.totalTokensSold + Q ≤ c.maxSupply)
    (hbuy : calculatePurchasePrice c Q = some cost)
    (hsell : calculateSalePrice
      { c with totalTokensSold := c.totalTokensSold + Q } Q = some proceeds)
    (hbranch : Q ≤ PRECISION / getCurrentPrice c ∨
      PRECISION / getCurrentPrice { c with totalTokensSold := c.totalTokensSold + Q } < Q) :
    proceeds ≤ cost ∧ proceeds - proceeds * FEE_PERCENTAGE / 100 ≤ cost := by
  have hanti : getPriceAtSupply c (c.totalTokensSold + Q) ≤
      getPriceAtSupply c c.totalTokensSold :=
    getPriceAtSupply_anti c (by norm_num at hm ⊢; omega) (Nat.le_add_right _ _) hrange
  have hmain : proceeds ≤ cost := by
    simp only [calculatePurchasePrice] at hbuy
    split at hbuy
    · exact absurd hbuy (by simp)
    rename_i hp0
    simp only [calculateSalePrice] at hsell
    split at hsell
    · exact absurd hsell (by simp)
    rename_i hnolt
    split at hsell
    · exact absurd hsell (by simp)
    rename_i hp0'
    have hp0'' : getPriceAtSupply c (c.totalTokensSold + Q) ≠ 0 := hp0'
    split at hbuy
    · rename_i hQp
      split at hsell
      · rename_i hQp'
        simp only [Option.some.injEq] at hbuy hsell
        rw [← hbuy, ← hsell]
        exact Nat.div_le_div_right (Nat.mul_le_mul_left Q hanti)
      · rename_i hQn'
        exact absurd (le_trans hQp (Nat.div_le_div_left hanti (Nat.pos_of_ne_zero hp0'')))
          hQn'
    · rename_i hQn
      split at hsell
      · rename_i hQp'
        rcases hbranch with hl | hr
        · exact absurd hl hQn
        · exact absurd hQp' (by omega)
      · rename_i hQn'
        simp only [Option.some.injEq] at hbuy hsell
        rw [← hbuy, ← hsell, Nat.add_sub_cancel, calculatePriceIntegral_update_sold]
  exact ⟨hmain, le_trans (Nat.sub_le _ _) hmain⟩

/-- C7 witness: a 300-million-unit round trip from the fresh
one-billion-unit curve takes the integral path on both legs, costing 254
gross and returning 254 gross (251 after the fee). -/
theorem c7_roundtrip_no_profit_witness :
    (254 : ℕ) ≤ 254 ∧ (254 : ℕ) - 254 * FEE_PERCENTAGE / 100 ≤ 254 :=
  c7_roundtrip_no_profit_same_branch (mkCurve 1000000000) 300000000 254 254
    (by decide) (by decide) (by decide) (by decide) (Or.inr (by decide))

/-- C8 counterexample: at `totalUnitsSold = maxUnits` (a state the claim's
domain `[0, maxUnits]` includes, with the constructor's starting price) the
current price is zero, so the pricers hit the division `PRECISION / 0` and
abort — even for quantity 0, where the claim demands a zero result. -/
theorem c8_divzero_counterexample :
    soldOutCurve.totalTokensSold = soldOutCurve.maxSupply ∧
    soldOutCurve.startingPrice = startingPriceOf soldOutCurve.maxSupply ∧
    1000000 ≤ soldOutCurve.maxSupply ∧ soldOutCurve.maxSupply ≤ 1000000000 ∧
    getCurrentPrice soldOutCurve = 0 ∧
    calculatePurchasePrice soldOutCurve 0 = none ∧
    calculatePurchasePrice soldOutCurve 1 = none ∧
    calculateSalePrice soldOutCurve 1 = none := by
  refine ⟨rfl, rfl, by decide, by decide, by decide, by decide, by decide, by decide⟩

/-- C8 (amended): for every constructor-coherent state with
`totalUnitsSold` strictly below `maxUnits`, both pricers compute a result
for every quantity (the current price is nonzero, so the shortcut divisor is
safe), they return zero on quantity 0, and the subtraction inside
`getPriceAtSupply` cannot underflow for any supply up to `maxUnits`. -/
theorem c8_tradePricer_total_below_max (c : Curve)
    (hsp : c.startingPrice = startingPriceOf c.maxSupply)
    (hlo : 1000000 ≤ c.maxSupply) (hhi : c.maxSupply ≤ 1000000000)
    (hsold : c.totalTokensSold < c.maxSupply) (q : ℕ) :
    (∃ v, calculatePurchasePrice c q = some v) ∧
    (q ≤ c.totalTokensSold → ∃ v, calculateSalePrice c q = some v) ∧
    calculatePurchasePrice c 0 = some 0 ∧
    calculateSalePrice c 0 = some 0 ∧
    (∀ s, s ≤ c.maxSupply → s * (PRECISION - 1) / c.maxSupply ≤ PRECISION) := by
  have hp1 : 1 ≤ getCurrentPrice c :=
    one_le_getPriceAtSupply hsp (by norm_num at hlo ⊢; omega) (by norm_num at hhi ⊢; omega)
      hsold
  refine ⟨?_, ?_, ?_, ?_, ?_⟩
  · simp only [calculatePurchasePrice]
    rw [if_neg (by omega : ¬getCurrentPrice c = 0)]
    split
    · exact ⟨_, rfl⟩
    · exact ⟨_, rfl⟩
  · intro hq
    simp only [calculateSalePrice]
    rw [if_neg (by omega : ¬c.totalTokensSold < q),
      if_neg (by omega : ¬getCurrentPrice c = 0)]
    split
    · exact ⟨_, rfl⟩
    · exact ⟨_, rfl⟩
  · simp only [calculatePurchasePrice]
    rw [if_neg (by omega : ¬getCurrentPrice c = 0), if_pos (Nat.zero_le _)]
    simp
  · simp only [calculateSalePrice]
    rw [if_neg (by omega : ¬c.totalTokensSold < 0),
      if_neg (by omega : ¬getCurrentPrice c = 0), if_pos (Nat.zero_le _)]
    simp
  · intro s hs
    calc s * (PRECISION - 1) / c.maxSupply
        ≤ c.maxSupply * (PRECISION - 1) / c.maxSupply :=
          Nat.div_le_div_right (Nat.mul_le_mul_right _ hs)
    _ = PRECISION - 1 := Nat.mul_div_cancel_left _ (by omega)
    _ ≤ PRECISION := Nat.sub_le _ _

/-- C8 witness: the fresh one-million-unit curve sits strictly below its
maximum supply and both pricers are total there. -/
theorem c8_tradePricer_total_witness :
    (∃ v, calculatePurchasePrice (mkCurve 1000000) 1000 = some v) ∧
    (∃ v, calculateSalePrice (mkCurve 1000000) 1000 = some v) ∧
    calculatePurchasePrice (mkCurve 1000000) 0 = some 0 ∧
    calculateSalePrice (mkCurve 1000000) 0 = some 0 := by
  have h := c8_tradePricer_total_below_max (mkCurve 1000000) rfl (by decide) (by decide)
    (by decide) 1000
  exact ⟨h.1, h.2.1 (by decide), h.2.2.1, h.2.2.2.1⟩

/-- C10: every successful sell removes the full gross proceeds from the
curve's quote holdings while deducting only the net payout from
`reserveTrustBalance`; along every trace from construction the holdings
equal the reserve minus the accumulated sell fees; and on a concrete trace
the liquidity check passes (`reserve 137 ≥ toSeller 137`) while the actual
holdings (136) cannot cover the gross transfer of 138, so the sell fails
only at the transfer itself. -/
theorem c10_sell_fee_reserve_drift :
    (∀ (c : Curve) (caller q minT r H R : ℕ),
      okValue (sellTokens c caller q minT) = some r →
      okTrustHeld (sellTokens c caller q minT) = some H →
      okReserve (sellTokens c caller q minT) = some R →
      H + r = c.trustHeld ∧ R + (r - r * FEE_PERCENTAGE / 100) = c.reserveTrustBalance) ∧
    (∀ (maxUnits : ℕ) (ops : List Op),
      (run (mkCurve maxUnits) ops).trustHeld + (traceTotals (mkCurve maxUnits) ops).sellFees =
        (run (mkCurve maxUnits) ops).reserveTrustBalance) ∧
    (feeDriftCurve.reserveTrustBalance = 137 ∧ feeDriftCurve.trustHeld = 136 ∧
      errorOf (sellTokens feeDriftCurve 7 150000000 0) = some .transferFailed) := by
  refine ⟨?_, ?_, by decide, by decide, by decide⟩
  · intro c caller q minT r H R h1 h2 h3
    cases hs : sellTokens c caller q minT with
    | error e =>
      rw [hs] at h1
      exact absurd h1 (by simp [okValue])
    | ok pr =>
      rw [hs] at h1 h2 h3
      simp only [okValue, okTrustHeld, okReserve, Option.some.injEq] at h1 h2 h3
      obtain ⟨-, -, -, -, -, -, -, -, h9, h10, -, -, -⟩ := sellTokens_ok_shape hs
      subst h1
      subst h2
      subst h3
      exact ⟨h10, h9⟩
  · intro maxUnits ops
    have h := run_accounting ops (mkCurve maxUnits)
    have h1 : (mkCurve maxUnits).reserveTrustBalance = 0 := rfl
    have h2 : (mkCurve maxUnits).trustHeld = 0 := rfl
    omega

/-- C10 witness: the concrete successful sell of `feeDriftOps` removes its
full gross proceeds (116) from the holdings while the reserve drops only by
the net payout (115). -/
theorem c10_sell_fee_reserve_drift_witness :
    feeDriftCurve.trustHeld + 116 = postBuyCurve.trustHeld ∧
    feeDriftCurve.reserveTrustBalance + (116 - 116 * FEE_PERCENTAGE / 100) =
      postBuyCurve.reserveTrustBalance :=
  c10_sell_fee_reserve_drift.1 postBuyCurve 7 150000000 0 116 feeDriftCurve.trustHeld
    feeDriftCurve.reserveTrustBalance (by decide) (by decide) (by decide)

end MyMemePad
